import Mathlib

/-!
Shallow embedding of the request-pipeline components of a NestJS demo
repository: interceptors (cache, timeout, logging, transform), a
validation pipe, a roles guard, and an HTTP exception filter.

Single-value RxJS observables (the only kind the sources produce: one
HTTP response per call) are modelled by `Rx.Settle`: the stream either
emits one value at a wall-clock offset `t` (milliseconds after
subscription) and completes, errors at offset `t`, or never settles.
JavaScript exceptions and RxJS error notifications are both modelled by
`Err`.
-/

/-- `HttpException` of `@nestjs/common`: carries an HTTP status code and a
message, as observed through `getStatus()` and the response body. -/
structure HttpException where
  status : Nat
  message : String
deriving DecidableEq, Repr

/-- `RequestTimeoutException` of `@nestjs/common`: status 408. -/
def RequestTimeoutException : HttpException :=
  { status := 408, message := "Request Timeout" }

/-- `BadRequestException(msg)` of `@nestjs/common`: status 400. -/
def BadRequestException (msg : String) : HttpException :=
  { status := 400, message := msg }

/-- Errors flowing through a stream or thrown by pipeline code:
either a framework `HttpException`, the RxJS `TimeoutError` produced by
the `timeout` operator, or any other JavaScript error (identified by its
rendered text). -/
inductive Err where
  | httpEx (e : HttpException)
  | timeoutError
  | other (text : String)
deriving DecidableEq, Repr

/-- JSON-like runtime values (request bodies, handler results, response
bodies). -/
inductive Value where
  | null
  | bool (b : Bool)
  | num (n : Int)
  | str (s : String)
  | arr (elems : List Value)
  | obj (fields : List (String × Value))
deriving Repr

namespace Rx

/-- Behaviour of a single-value observable: it settles with a value at
time `t` (ms after subscription), settles with an error at time `t`, or
never settles. -/
inductive Settle (α : Type) where
  | success (t : Nat) (v : α)
  | failure (t : Nat) (e : Err)
  | never
deriving Repr

/-- RxJS `of(v)`: emits `v` immediately and completes. -/
def of (v : α) : Settle α := .success 0 v

/-- RxJS `throwError(() => e)`: errors immediately. -/
def throwErr (e : Err) : Settle α := .failure 0 e

/-- RxJS `map(f)`: transforms the emitted value; errors and
non-settlement pass through. -/
def map (f : α → β) : Settle α → Settle β
  | .success t v => .success t (f v)
  | .failure t e => .failure t e
  | .never => .never

/-- Delays a settlement by `t` ms: used to compose a replacement
observable that starts at the moment the original errored. -/
def Settle.shift (t : Nat) : Settle α → Settle α
  | .success u v => .success (t + u) v
  | .failure u e => .failure (t + u) e
  | .never => .never

/-- RxJS `catchError(f)`: on an error at time `t`, switches to the
replacement observable `f e`, which runs from time `t` on; success and
non-settlement pass through. -/
def catchError (f : Err → Settle α) : Settle α → Settle α
  | .failure t e => (f e).shift t
  | .success t v => .success t v
  | .never => .never

/-- RxJS `timeout(ms)`: races the source against a timer armed at
subscription.  If the source settles strictly before `ms`, it passes
through; otherwise the timer wins and the stream errors with
`TimeoutError` at time `ms`. -/
def timeout (ms : Nat) : Settle α → Settle α
  | .success t v => if t < ms then .success t v else .failure ms .timeoutError
  | .failure t e => if t < ms then .failure t e else .failure ms .timeoutError
  | .never => .failure ms .timeoutError

/-- When the observable settles, at what time (ms); `none` when it never
settles. -/
def settleTime : Settle α → Option Nat
  | .success t _ => some t
  | .failure t _ => some t
  | .never => none

end Rx

/-- `CallHandler` of `@nestjs/common`: `handle()` yields the observable
of the remaining inner chain (ultimately the route handler). -/
structure CallHandler (α : Type) where
  handle : Rx.Settle α

namespace CacheInterceptor

/-- `src/interceptors/cache.interceptor.ts` line 28:
`const isCached = true;` (hardcoded). -/
def isCached : Bool := true

/-- The hardcoded cached response of line 30: `of([])` emits the empty
array. -/
def cachedResponse : Value := .arr []

/-- Body of `CacheInterceptor.intercept` (lines 29 to 32) with the local
`isCached` hoisted into a parameter so that both branches of the
`if` can be stated; the second component instruments how many times
`next.handle()` is invoked in the taken branch (0 in the hit branch,
1 in the miss branch, read directly off the source text). -/
def interceptWith (isCached : Bool) (next : CallHandler Value) :
    Rx.Settle Value × Nat :=
  if isCached then (Rx.of cachedResponse, 0)
  else (next.handle, 1)

/-- `CacheInterceptor.intercept` as written: the hit flag is the
hardcoded `true` of line 28. -/
def intercept (next : CallHandler Value) : Rx.Settle Value × Nat :=
  interceptWith isCached next

end CacheInterceptor

namespace TimeoutInterceptor

/-- The `catchError` callback of `timeout.interceptor.ts` lines 25 to 30:
an RxJS `TimeoutError` (the `instanceof` test) is replaced by
`throwError(() => new RequestTimeoutException())`; any other error is
rethrown unchanged. -/
def onError (err : Err) : Rx.Settle α :=
  match err with
  | .timeoutError => Rx.throwErr (.httpEx RequestTimeoutException)
  | e => Rx.throwErr e

/-- `TimeoutInterceptor.intercept` (lines 22 to 32):
`next.handle().pipe(timeout(5000), catchError(onError))`. -/
def intercept (next : CallHandler α) : Rx.Settle α :=
  Rx.catchError onError (Rx.timeout 5000 next.handle)

end TimeoutInterceptor

/-- `interface Response<T> { data: T }` of the transform interceptor
source. -/
structure Response (α : Type) where
  data : α
deriving DecidableEq, Repr

namespace TransformInterceptor

/-- `TransformInterceptor.intercept` (transform interceptor source,
lines 48 to 53): `next.handle().pipe(map((data) => ({ data })))`. -/
def intercept (next : CallHandler α) : Rx.Settle (Response α) :=
  Rx.map (fun data => { data }) next.handle

end TransformInterceptor

/-- The console records the logging interceptor makes: the start marker
(the Before console line) and the elapsed-time record (the After console
line carrying the measured milliseconds). -/
inductive LogEntry where
  | before
  | after (elapsedMs : Nat)
deriving DecidableEq, Repr

/-- Whether a log contains an elapsed-time record. -/
def hasAfterEntry (log : List LogEntry) : Bool :=
  log.any fun entry =>
    match entry with
    | .after _ => true
    | _ => false

namespace LoggingInterceptor

/-- `LoggingInterceptor.intercept` (lines 59 to 70).  The start marker is
logged before `next.handle()` is touched, `now` is taken as the
subscription instant (time 0 of the inner observable), and
`tap(() => console.log(...))` registers only a next callback: it fires
when the inner producer emits a value, at which instant
`Date.now() - now` equals the emission offset `t`; an error or a
never-settling stream triggers no callback.  The returned stream is the
inner one unchanged (`tap` does not alter notifications).  The second
component is the console log in emission order. -/
def intercept (next : CallHandler α) : Rx.Settle α × List LogEntry :=
  match next.handle with
  | .success t v => (.success t v, [.before, .after t])
  | .failure t e => (.failure t e, [.before])
  | .never => (.never, [.before])

end LoggingInterceptor

/-- The native JavaScript constructor functions listed in
`CustomValidationPipe.toValidate`: `[String, Boolean, Number, Array,
Object]`. -/
inductive NativeType where
  | string
  | boolean
  | number
  | array
  | object
deriving DecidableEq, Repr

/-- A class (domain) metatype: `plainToInstance(metatype, value)` is the
conversion `toInstance` performed by class-transformer, and
`validate(object)` is the class-validator run `validateInst`, returning
the list of constraint-violation messages declared on the class.  Both
are external collaborators, so they are carried as data of the
metatype. -/
structure DomainType where
  name : String
  toInstance : Value → Value
  validateInst : Value → List String

/-- A parameter metatype: one of the five natives, or a decorated domain
class. -/
inductive Metatype where
  | native (t : NativeType)
  | domain (d : DomainType)

/-- `ArgumentMetadata` of `@nestjs/common`: the pipe destructures only
`metatype`, which is optional. -/
structure ArgumentMetadata where
  type : String
  metatype : Option Metatype
  data : Option String

namespace CustomValidationPipe

/-- `CustomValidationPipe.toValidate` (validation pipe source, lines 77
to 80): `metatype` is eligible for validation iff it is not one of the
five natives. -/
def toValidate : Metatype → Bool
  | .native _ => false
  | .domain _ => true

/-- `CustomValidationPipe.transform` (lines 43 to 68).  The first match
arms realise `if (!metatype || !this.toValidate(metatype)) return
value;`.  Otherwise (a domain metatype) the raw value is converted by
`plainToInstance` and validated; one or more violations throw
a `BadRequestException` carrying the message Validation failed, else the ORIGINAL raw value
is returned.  The second component instruments how many times
`validate` is invoked. -/
def transform (value : Value) (metadata : ArgumentMetadata) :
    Except Err Value × Nat :=
  match metadata.metatype with
  | none => (.ok value, 0)
  | some (.native _) => (.ok value, 0)
  | some (.domain d) =>
    let object := d.toInstance value
    let errors := d.validateInst object
    if errors.length > 0 then
      (.error (.httpEx (BadRequestException "Validation failed")), 1)
    else
      (.ok value, 1)

end CustomValidationPipe

/-- The authenticated user attached to the request
(`request.user`), when present. -/
structure User where
  roles : List String

/-- The transport request as the sources read it: its original URL (the
exception filter) and the optionally attached user (the guard). -/
structure Request where
  url : String
  user : Option User

/-- `ExecutionContext` as consumed by `RolesGuard`: `rolesMetadata` is
the reflector lookup of the roles key on `context.getHandler()` (the metadata
attached to the handler, or `undefined` when none is declared), and
`request` is `context.switchToHttp().getRequest()`. -/
structure ExecutionContext where
  rolesMetadata : Option (List String)
  request : Request

namespace RolesGuard

/-- `RolesGuard.matchRoles` (roles guard source, lines 56 to 58): the
placeholder body `return true;`. -/
def matchRoles (decoratorRoles : List String) (userRoles : List String) :
    Bool :=
  true

/-- `RolesGuard.canActivate` (lines 29 to 50).  `if (!roles) return
true;`; otherwise `const user = request.user; return
this.matchRoles(roles, user.roles);` — when `request.user` is
`undefined`, the member access `user.roles` throws a JavaScript
`TypeError` instead of producing a boolean. -/
def canActivate (context : ExecutionContext) : Except Err Bool :=
  match context.rolesMetadata with
  | none => .ok true
  | some roles =>
    match context.request.user with
    | none =>
      .error (.other "TypeError: cannot read roles of undefined")
    | some user => .ok (matchRoles roles user.roles)

end RolesGuard

/-- Left-pads a decimal rendering to 2 digits. -/
def pad2 (n : Nat) : String :=
  if n < 10 then "0" ++ toString n else toString n

/-- Left-pads a decimal rendering to 3 digits. -/
def pad3 (n : Nat) : String :=
  if n < 10 then "00" ++ toString n
  else if n < 100 then "0" ++ toString n
  else toString n

/-- Left-pads a decimal rendering to 4 digits. -/
def pad4 (n : Nat) : String :=
  if n < 10 then "000" ++ toString n
  else if n < 100 then "00" ++ toString n
  else if n < 1000 then "0" ++ toString n
  else toString n

/-- Proleptic-Gregorian civil date `(year, month, day)` from a count of
days since 1970-01-01 (non-negative instants only, which covers every
`Date.now()` reading). -/
def civilFromDays (days : Nat) : Nat × Nat × Nat :=
  let z := days + 719468
  let era := z / 146097
  let doe := z % 146097
  let yoe := (doe - doe / 1460 + doe / 36524 - doe / 146096) / 365
  let y := yoe + era * 400
  let doy := doe - (365 * yoe + yoe / 4 - yoe / 100)
  let mp := (5 * doy + 2) / 153
  let d := doy - (153 * mp + 2) / 5 + 1
  let m := if mp < 10 then mp + 3 else mp - 9
  (if m ≤ 2 then y + 1 else y, m, d)

/-- JavaScript `new Date(ms).toISOString()` for a non-negative epoch
instant: the ISO-8601 string `YYYY-MM-DDTHH:mm:ss.sssZ`. -/
def toISOString (ms : Nat) : String :=
  let days := ms / 86400000
  let rem := ms % 86400000
  let date := civilFromDays days
  let hh := rem / 3600000
  let mi := rem % 3600000 / 60000
  let ss := rem % 60000 / 1000
  let msr := rem % 1000
  pad4 date.1 ++ "-" ++ pad2 date.2.1 ++ "-" ++ pad2 date.2.2 ++ "T" ++
    pad2 hh ++ ":" ++ pad2 mi ++ ":" ++ pad2 ss ++ "." ++ pad3 msr ++ "Z"

/-- `ArgumentsHost` as consumed by `HttpExceptionFilter.catch`:
`switchToHttp().getRequest()` is `request`, and `nowMs` is the
wall-clock instant `new Date()` reads when the filter runs. -/
structure ArgumentsHost where
  request : Request
  nowMs : Nat

/-- One invocation of the transport response writer:
`response.status(status).json(body)`. -/
structure ResponseWrite where
  status : Nat
  body : Value

namespace HttpExceptionFilter

/-- `HttpExceptionFilter.catch` (`http-exception.filter.ts` lines 28 to
39), returning the list of response-writer invocations it performs, in
order.  It reads `exception.getStatus()` and emits exactly one
`response.status(status).json({ statusCode, timestamp, path })`; it
returns normally (total function), so nothing is rethrown. -/
def catchEx (exception : HttpException) (host : ArgumentsHost) :
    List ResponseWrite :=
  let status := exception.status
  [ { status
      body := .obj
        [ ("statusCode", .num (status : Int)),
          ("timestamp", .str (toISOString host.nowMs)),
          ("path", .str host.request.url) ] } ]

end HttpExceptionFilter

/-!  Concrete fixtures used by counterexamples and witnesses.  -/

/-- A domain metatype modelling the spec example of a class requiring a
non-negative age: class-validator reports one violation on the fixture
value below. -/
def ageDomain : DomainType :=
  { name := "CreateCatDto"
    toInstance := fun v => v
    validateInst := fun _ => ["age must not be less than 0"] }

/-- A second domain metatype whose validation reports two violations
with different messages. -/
def ageNameDomain : DomainType :=
  { name := "CreateCatDtoStrict"
    toInstance := fun v => v
    validateInst := fun _ =>
      ["name must be longer", "age must not be less than 0"] }

/-- The spec example raw body: a record with name x and age -1. -/
def invalidCat : Value :=
  .obj [ ("name", .str "x"), ("age", .num (-1)) ]

/-!  Theorems, one per claim.  -/

/-- C1: on a determined cache hit `CacheInterceptor.intercept` returns
the cached payload (the stream `of([])`) without invoking
`next.handle()` (invocation count 0), and on a miss it proceeds by
returning `next.handle()` (invocation count 1). -/
theorem cache_hit_short_circuits_miss_proceeds (next : CallHandler Value) :
    CacheInterceptor.interceptWith true next
      = (Rx.of CacheInterceptor.cachedResponse, 0)
    ∧ CacheInterceptor.interceptWith false next = (next.handle, 1) :=
  ⟨rfl, rfl⟩

/-- C10: since the hit flag is hardcoded `true` and the cached payload
hardcoded `[]`, every intercepted call yields the empty array emitted at
once with the handler invoked 0 times, independently of `next`; in
particular the result is never the miss-branch pair. -/
theorem cache_always_hits_handler_never_runs (next : CallHandler Value) :
    CacheInterceptor.intercept next
      = (Rx.Settle.success 0 (Value.arr []), 0)
    ∧ CacheInterceptor.intercept next ≠ (next.handle, 1) := by
  refine ⟨rfl, fun h => ?_⟩
  have h2 : (0 : Nat) = 1 := congrArg Prod.snd h
  exact absurd h2 (by decide)

/-- Witness for C10: at a concrete inner producer the intercepted call
yields the cached empty array with the handler never invoked, and is not
the miss-branch outcome. -/
theorem cache_always_hits_witness :
    CacheInterceptor.intercept ⟨.success 4 (.str "real")⟩
      = (Rx.Settle.success 0 (Value.arr []), 0)
    ∧ CacheInterceptor.intercept ⟨.success 4 (.str "real")⟩
      ≠ ((⟨.success 4 (.str "real")⟩ : CallHandler Value).handle, 1) :=
  cache_always_hits_handler_never_runs ⟨.success 4 (.str "real")⟩

/-- C2: `TimeoutInterceptor` imposes a 5000 ms deadline: if the inner
producer has not settled strictly before 5000 ms (including never
settling), the call fails with the 408 `RequestTimeoutException` at the
deadline; an error other than the RxJS `TimeoutError` settling before
the deadline passes through unchanged. -/
theorem timeout_deadline_and_error_passthrough (next : CallHandler Value) :
    ((∀ t, Rx.settleTime next.handle = some t → 5000 ≤ t) →
      TimeoutInterceptor.intercept next
        = .failure 5000 (.httpEx RequestTimeoutException))
    ∧ (∀ t e, next.handle = .failure t e → t < 5000 → e ≠ .timeoutError →
        TimeoutInterceptor.intercept next = .failure t e) := by
  constructor
  · intro h
    match hh : next.handle with
    | .success t v =>
      have ht : 5000 ≤ t := h t (by rw [hh, Rx.settleTime])
      simp [TimeoutInterceptor.intercept, TimeoutInterceptor.onError,
        Rx.timeout, Rx.catchError, Rx.throwErr, Rx.Settle.shift, hh,
        Nat.not_lt.mpr ht]
    | .failure t e =>
      have ht : 5000 ≤ t := h t (by rw [hh, Rx.settleTime])
      simp [TimeoutInterceptor.intercept, TimeoutInterceptor.onError,
        Rx.timeout, Rx.catchError, Rx.throwErr, Rx.Settle.shift, hh,
        Nat.not_lt.mpr ht]
    | .never =>
      simp [TimeoutInterceptor.intercept, TimeoutInterceptor.onError,
        Rx.timeout, Rx.catchError, Rx.throwErr, Rx.Settle.shift, hh]
  · intro t e hh hlt hne
    match e with
    | .timeoutError => exact absurd rfl hne
    | .httpEx ex =>
      simp [TimeoutInterceptor.intercept, TimeoutInterceptor.onError,
        Rx.timeout, Rx.catchError, Rx.throwErr, Rx.Settle.shift, hh, hlt]
    | .other s =>
      simp [TimeoutInterceptor.intercept, TimeoutInterceptor.onError,
        Rx.timeout, Rx.catchError, Rx.throwErr, Rx.Settle.shift, hh, hlt]

/-- Witness for C2: a never-settling inner producer yields the 408
timeout failure at 5000 ms, and an inner error at 3 ms passes through
unchanged. -/
theorem timeout_deadline_witness :
    TimeoutInterceptor.intercept (α := Value) ⟨.never⟩
      = .failure 5000 (.httpEx RequestTimeoutException)
    ∧ TimeoutInterceptor.intercept (α := Value) ⟨.failure 3 (.other "boom")⟩
      = .failure 3 (.other "boom") :=
  ⟨(timeout_deadline_and_error_passthrough ⟨.never⟩).1
      (fun t hmem => by simp [Rx.settleTime] at hmem),
    (timeout_deadline_and_error_passthrough ⟨.failure 3 (.other "boom")⟩).2
      3 (.other "boom") rfl (by decide) (by simp)⟩

/-- C3: whenever the inner chain succeeds with payload `x`,
`TransformInterceptor` yields exactly the record with `data` field `x`,
at the same instant. -/
theorem transform_wraps_success_in_data {α : Type} (next : CallHandler α)
    (t : Nat) (v : α) (h : next.handle = .success t v) :
    TransformInterceptor.intercept next = .success t { data := v } := by
  simp [TransformInterceptor.intercept, Rx.map, h]

/-- Witness for C3: the handler result `[]` yields the final payload
with `data` equal to the empty array. -/
theorem transform_wraps_empty_array_witness :
    TransformInterceptor.intercept (α := Value) ⟨.success 0 (.arr [])⟩
      = .success 0 { data := Value.arr [] } :=
  transform_wraps_success_in_data (α := Value)
    ⟨.success 0 (.arr [])⟩ 0 (.arr []) rfl

/-- C4: whenever `CustomValidationPipe.transform` completes without
failing it returns exactly the original raw value; with an absent
metatype or a native metatype the value passes through unchanged and
`validate` is never invoked (count 0). -/
theorem validation_pipe_passes_raw_value (value : Value)
    (md : ArgumentMetadata) :
    (∀ r n, CustomValidationPipe.transform value md = (.ok r, n) →
      r = value)
    ∧ (md.metatype = none →
        CustomValidationPipe.transform value md = (.ok value, 0))
    ∧ (∀ t, md.metatype = some (Metatype.native t) →
        CustomValidationPipe.transform value md = (.ok value, 0)) := by
  refine ⟨?_, ?_, ?_⟩
  · intro r n h
    match hm : md.metatype with
    | none =>
      rw [CustomValidationPipe.transform, hm] at h
      have he : Except.ok (ε := Err) value = Except.ok r :=
        congrArg Prod.fst h
      cases he; rfl
    | some (.native t) =>
      rw [CustomValidationPipe.transform, hm] at h
      have he : Except.ok (ε := Err) value = Except.ok r := congrArg Prod.fst h
      cases he; rfl
    | some (.domain d) =>
      have hd : CustomValidationPipe.transform value md
          = if (d.validateInst (d.toInstance value)).length > 0
            then (.error (.httpEx (BadRequestException "Validation failed")),
                   1)
            else (.ok value, 1) := by
        rw [CustomValidationPipe.transform, hm]
      rw [hd] at h
      by_cases hv : (d.validateInst (d.toInstance value)).length > 0
      · rw [if_pos hv] at h
        have he : Except.error (α := Value) (Err.httpEx
            (BadRequestException "Validation failed")) = Except.ok r :=
          congrArg Prod.fst h
        cases he
      · rw [if_neg hv] at h
        have he : Except.ok (ε := Err) value = Except.ok r :=
          congrArg Prod.fst h
        cases he; rfl
  · intro hm
    rw [CustomValidationPipe.transform, hm]
  · intro t hm
    rw [CustomValidationPipe.transform, hm]

/-- Witness for C4: the raw native-typed value hello bypasses
validation and passes through unchanged with `validate` never run. -/
theorem validation_pipe_native_witness :
    CustomValidationPipe.transform (.str "hello")
        { type := "body", metatype := some (.native .string), data := none }
      = (.ok (.str "hello"), 0) :=
  (validation_pipe_passes_raw_value (.str "hello")
    { type := "body", metatype := some (.native .string), data := none }).2.2
    .string rfl

/-- Counterexample for C5: two domain metatypes whose validations report
different violation counts and messages (one versus two) on the raw body
with name x and age -1 both make the pipe fail with the identical fixed
error 400 Validation failed, so the produced error does not aggregate
the violation count or messages. -/
theorem validation_error_is_fixed_not_aggregated :
    (ageDomain.validateInst (ageDomain.toInstance invalidCat)).length = 1
    ∧ (ageNameDomain.validateInst
        (ageNameDomain.toInstance invalidCat)).length = 2
    ∧ CustomValidationPipe.transform invalidCat
        { type := "body", metatype := some (.domain ageDomain), data := none }
      = (.error (.httpEx { status := 400, message := "Validation failed" }), 1)
    ∧ CustomValidationPipe.transform invalidCat
        { type := "body", metatype := some (.domain ageNameDomain),
          data := none }
      = (.error (.httpEx { status := 400, message := "Validation failed" }),
          1) :=
  ⟨rfl, rfl, rfl, rfl⟩

/-- C5 amended: for a domain metatype, if validation of the converted
instance reports one or more violations, the pipe fails with a
`BadRequestException` (kind BadRequest, status 400) carrying the fixed
message Validation failed; the violation count and messages are not
included in the error. -/
theorem validation_pipe_bad_request_on_violations (value : Value)
    (md : ArgumentMetadata) (d : DomainType)
    (hm : md.metatype = some (Metatype.domain d))
    (hv : (d.validateInst (d.toInstance value)).length > 0) :
    CustomValidationPipe.transform value md
      = (.error (.httpEx (BadRequestException "Validation failed")), 1) := by
  have hd : CustomValidationPipe.transform value md
      = if (d.validateInst (d.toInstance value)).length > 0
        then (.error (.httpEx (BadRequestException "Validation failed")), 1)
        else (.ok value, 1) := by
    rw [CustomValidationPipe.transform, hm]
  rw [hd, if_pos hv]

/-- Witness for C5 amended: the invalid body against the age-validating
domain metatype yields the 400 Validation failed error. -/
theorem validation_pipe_bad_request_witness :
    CustomValidationPipe.transform invalidCat
        { type := "body", metatype := some (.domain ageDomain), data := none }
      = (.error (.httpEx (BadRequestException "Validation failed")), 1) :=
  validation_pipe_bad_request_on_violations invalidCat
    { type := "body", metatype := some (.domain ageDomain), data := none }
    ageDomain rfl (by decide)

/-- C6: for every caught `HttpException`, the filter performs exactly
one response write, whose status is the status of the exception and
whose body is exactly the object with fields statusCode (the status),
timestamp (the ISO-8601 rendering of the current instant) and path (the
original request URL); `catchEx` is a total function into response
writes, so no error is rethrown. -/
theorem http_exception_filter_writes_once (exception : HttpException)
    (host : ArgumentsHost) :
    HttpExceptionFilter.catchEx exception host
      = [ { status := exception.status
            body := Value.obj
              [ ("statusCode", .num (exception.status : Int)),
                ("timestamp", .str (toISOString host.nowMs)),
                ("path", .str host.request.url) ] } ]
    ∧ (HttpExceptionFilter.catchEx exception host).length = 1 :=
  ⟨rfl, rfl⟩

/-- Counterexample for C7: for an inner producer that fails (at 3 ms),
the logging interceptor emits only the start marker: no elapsed-time
record is made on failure, because `tap` was given only a next
callback. -/
theorem logging_no_elapsed_record_on_failure :
    (LoggingInterceptor.intercept (α := Value)
        ⟨.failure 3 (.other "boom")⟩).2 = [.before]
    ∧ hasAfterEntry (LoggingInterceptor.intercept (α := Value)
        ⟨.failure 3 (.other "boom")⟩).2 = false :=
  ⟨rfl, rfl⟩

/-- C7 amended: the logging interceptor records the start marker first,
before consulting the inner producer, and re-emits the original value or
error unchanged; it records the elapsed wall-clock time only when the
inner producer completes with success (on failure the log holds only the
start marker). -/
theorem logging_start_marker_and_passthrough {α : Type}
    (next : CallHandler α) :
    (LoggingInterceptor.intercept next).1 = next.handle
    ∧ (LoggingInterceptor.intercept next).2.head? = some .before
    ∧ (∀ t v, next.handle = .success t v →
        (LoggingInterceptor.intercept next).2 = [.before, .after t])
    ∧ (∀ t e, next.handle = .failure t e →
        (LoggingInterceptor.intercept next).2 = [.before]) := by
  obtain ⟨s⟩ := next
  match s with
  | .success t v =>
    refine ⟨rfl, rfl, ?_, ?_⟩
    · intro t₁ v₁ h
      cases h
      rfl
    · intro t₁ e₁ h
      cases h
  | .failure t e =>
    refine ⟨rfl, rfl, ?_, ?_⟩
    · intro t₁ v₁ h
      cases h
    · intro t₁ e₁ h
      cases h
      rfl
  | .never =>
    refine ⟨rfl, rfl, ?_, ?_⟩
    · intro t₁ v₁ h
      cases h
    · intro t₁ e₁ h
      cases h

/-- Witness for C7 amended: a success at 7 ms logs the start marker then
the 7 ms elapsed record. -/
theorem logging_success_witness :
    (LoggingInterceptor.intercept (α := Value)
        ⟨.success 7 (.arr [])⟩).2 = [.before, .after 7] :=
  (logging_start_marker_and_passthrough (α := Value)
    ⟨.success 7 (.arr [])⟩).2.2.1 7 (.arr []) rfl

/-- C8: `RolesGuard.canActivate` returns `true` for every context whose
request carries a user, it returns `true` when no roles metadata is
declared, and `matchRoles` returns `true` for all inputs. -/
theorem roles_guard_always_allows (context : ExecutionContext) :
    (∀ u, context.request.user = some u →
      RolesGuard.canActivate context = .ok true)
    ∧ (context.rolesMetadata = none →
        RolesGuard.canActivate context = .ok true)
    ∧ (∀ a b, RolesGuard.matchRoles a b = true) := by
  refine ⟨?_, ?_, fun a b => rfl⟩
  · intro u hu
    match hm : context.rolesMetadata with
    | none => rw [RolesGuard.canActivate, hm]
    | some roles => rw [RolesGuard.canActivate, hm, hu]; rfl
  · intro hm
    rw [RolesGuard.canActivate, hm]

/-- Witness for C8: declared roles metadata and an attached user yield
admission. -/
theorem roles_guard_allows_witness :
    RolesGuard.canActivate
        { rolesMetadata := some ["admin"],
          request := { url := "/cats", user := some { roles := ["user"] } } }
      = .ok true :=
  (roles_guard_always_allows
      { rolesMetadata := some ["admin"],
        request :=
          { url := "/cats", user := some { roles := ["user"] } } }).1
    { roles := ["user"] } rfl

/-- C9: when roles metadata is declared and the request carries no user,
`canActivate` does not return a boolean admission decision: the member
access on the absent user throws a TypeError, so the result is an error
and equals no `ok` value. -/
theorem roles_guard_throws_without_user (context : ExecutionContext)
    (roles : List String) (hm : context.rolesMetadata = some roles)
    (hu : context.request.user = none) :
    RolesGuard.canActivate context
      = .error (.other "TypeError: cannot read roles of undefined")
    ∧ ∀ b, RolesGuard.canActivate context ≠ .ok b := by
  have h : RolesGuard.canActivate context
      = .error (.other "TypeError: cannot read roles of undefined") := by
    rw [RolesGuard.canActivate, hm, hu]
  exact ⟨h, fun b hb => by rw [h] at hb; cases hb⟩

/-- Witness for C9: declared metadata and an absent user make the guard
throw. -/
theorem roles_guard_throws_witness :
    RolesGuard.canActivate
        { rolesMetadata := some ["admin"],
          request := { url := "/cats", user := none } }
      = .error (.other "TypeError: cannot read roles of undefined") :=
  (roles_guard_throws_without_user
      { rolesMetadata := some ["admin"],
        request := { url := "/cats", user := none } }
      ["admin"] rfl rfl).1
